import Mathlib

/-!
Verification development for the mobster SBOM enrichment module
(`src/mobster/sbom/enrich.py`).

The Python code manipulates JSON-like documents (Python dicts, lists,
strings, numbers).  We embed JSON values as the inductive type `JValue`,
Python dictionaries as association lists with Python's update semantics
(assignment to an existing key updates it in place, a new key is appended),
and Python exceptions (`KeyError`, `ValueError`, `AttributeError`,
`TypeError`, `NotImplementedError`) as an error monad `Except PyErr`.

Functions are translated one-to-one from the source.  Parts of the
repository that the module imports but whose source is not available
(`mobster.sbom.merge`: `try_parse_purl`, `_detect_sbom_type`, the wrapper
constructors; the two field-mapping JSON tables) are modelled from the
specification and marked as such in their doc comments.
-/

/-- JSON-like values: the data manipulated by the enrichment module. -/
inductive JValue where
  | null : JValue
  | bool (b : Bool) : JValue
  | num (n : Int) : JValue
  | str (s : String) : JValue
  | arr (xs : List JValue) : JValue
  | obj (fs : List (String × JValue)) : JValue
deriving Repr

namespace JValue

mutual

/-- Structural equality on JSON values (Python `==` for the shapes the
enrichment code compares; objects are compared as ordered key/value lists,
which agrees with Python dict equality on the objects built here). -/
def beq : JValue → JValue → Bool
  | .null, .null => true
  | .bool a, .bool b => a == b
  | .num a, .num b => a == b
  | .str a, .str b => a == b
  | .arr xs, .arr ys => beqList xs ys
  | .obj fs, .obj gs => beqObj fs gs
  | _, _ => false

/-- Elementwise equality of JSON arrays. -/
def beqList : List JValue → List JValue → Bool
  | [], [] => true
  | x :: xs, y :: ys => beq x y && beqList xs ys
  | _, _ => false

/-- Elementwise equality of JSON objects as key/value lists. -/
def beqObj : List (String × JValue) → List (String × JValue) → Bool
  | [], [] => true
  | (k, v) :: fs, (l, w) :: gs => k == l && beq v w && beqObj fs gs
  | _, _ => false

end

instance : BEq JValue := ⟨beq⟩

end JValue

/-- Python dictionaries with string keys, as ordered association lists. -/
abbrev PyDict := List (String × JValue)

/-- Look a key up in a dictionary (`d.get(k)` returning `None` if absent). -/
def PyDict.get? (d : PyDict) (k : String) : Option JValue :=
  match d with
  | [] => none
  | (l, v) :: rest => if l = k then some v else PyDict.get? rest k

/-- Python `k in d` membership test on a dictionary. -/
def PyDict.hasKey (d : PyDict) (k : String) : Bool :=
  (PyDict.get? d k).isSome

/-- Python `d[k] = v`: update the existing entry in place, or append a new
entry at the end (Python dicts preserve insertion order). -/
def PyDict.set (d : PyDict) (k : String) (v : JValue) : PyDict :=
  match d with
  | [] => [(k, v)]
  | (l, w) :: rest =>
      if l = k then (l, v) :: rest else (l, w) :: PyDict.set rest k v

/-- Python exceptions raised by the enrichment code. -/
inductive PyErr where
  | keyError (k : String) : PyErr
  | valueError (msg : String) : PyErr
  | attributeError (msg : String) : PyErr
  | typeError (msg : String) : PyErr
  | notImplementedError (msg : String) : PyErr
deriving Repr, DecidableEq

/-- Python `v[k]` subscript on a JSON value: `KeyError` when the key is
absent from an object, `TypeError` when the value is not an object. -/
def JValue.getKey (v : JValue) (k : String) : Except PyErr JValue :=
  match v with
  | .obj d =>
      match PyDict.get? d k with
      | some x => .ok x
      | none => .error (.keyError k)
  | _ => .error (.typeError "object is not subscriptable")

/-- Python `v[k] = x` item assignment on a JSON value. -/
def JValue.setKey (v : JValue) (k : String) (x : JValue) : Except PyErr JValue :=
  match v with
  | .obj d => .ok (.obj (PyDict.set d k x))
  | _ => .error (.typeError "object does not support item assignment")

/-- Python `k in v` containment test on a JSON value (only meaningful for
objects in this code base). -/
def JValue.hasKey (v : JValue) (k : String) : Except PyErr Bool :=
  match v with
  | .obj d => .ok (PyDict.hasKey d k)
  | _ => .error (.typeError "argument is not iterable")

/-- Python truthiness of a JSON value (`if newPackage:`): empty containers,
zero, the empty string, `None` and `False` are falsy. -/
def JValue.pyTruthy : JValue → Bool
  | .null => false
  | .bool b => b
  | .num n => n != 0
  | .str s => s ≠ ""
  | .arr xs => !xs.isEmpty
  | .obj fs => !fs.isEmpty

/-- Python `str(v)` for the scalar values interpolated into f-strings by the
enrichment code (containers are not interpolated by any claim we state). -/
def JValue.pyStr : JValue → String
  | .null => "None"
  | .bool b => if b then "True" else "False"
  | .num n => toString n
  | .str s => s
  | .arr _ => "<list>"
  | .obj _ => "<dict>"

/-- Structured package URL, the identifier produced by the external
`packageurl` parser: `{type, namespace, name, version, qualifiers, subpath}`.
The Python attribute `namespace` is a Lean keyword, so the field is called
`nspace` here. -/
structure PackageURL where
  type : String
  nspace : Option String
  name : String
  version : Option String
  qualifiers : List (String × String)
  subpath : Option String
deriving Repr, DecidableEq

/-- Returns the inputted purl without the version
(`purl._replace(version=None)`), allowing equality of purls regardless of
version. -/
def purl_without_version (purl : PackageURL) : PackageURL :=
  { purl with version := none }

/-- Modelled from the spec: `merge.try_parse_purl`, the external purl parser
(`mobster.sbom.merge` is not part of the sources provided).  It parses
`pkg:<type>[/<namespace>]/<name>[@<version>]` and yields `none` on anything
malformed.  No claim depends on the details of the parse. -/
def try_parse_purl (s : String) : Option PackageURL :=
  if !s.startsWith "pkg:" then none else
  let rest := s.drop 4
  let (body, ver) :=
    match rest.splitOn "@" with
    | [b] => (b, (none : Option String))
    | [b, v] => (b, some v)
    | _ => ("", none)
  match body.splitOn "/" with
  | t :: segs =>
      match segs.getLast? with
      | some nm =>
          if t = "" ∨ nm = "" then none
          else
            some { type := t,
                   nspace := if segs.length ≥ 2 then
                       some (String.intercalate "/" segs.dropLast) else none,
                   name := nm, version := ver, qualifiers := [], subpath := none }
      | none => none
  | [] => none

/-- A wrapped SBOM element as seen by the Matcher/Merge Driver: the result of
calling `purl()` on the wrapper (which may itself raise, or yield `None`),
and the underlying record that `unwrap()` returns. -/
structure SBOMItem where
  purlE : Except PyErr (Option PackageURL)
  data : JValue

/-- Default item for the (unreachable) out-of-range index case of
`target_sbom[index]`; every stored index points into the target list. -/
def SBOMItem.dflt : SBOMItem := ⟨.ok none, .null⟩

/-- Computes `purl_without_version(item.purl())` as the driver does: when
`purl()` yields `None`, Python raises
`AttributeError: 'NoneType' object has no attribute '_replace'` inside
`purl_without_version`. -/
def stripVersionOf (po : Except PyErr (Option PackageURL)) :
    Except PyErr PackageURL := do
  match ← po with
  | some p => pure (purl_without_version p)
  | none => .error (.attributeError "NoneType object has no attribute _replace")

/-- The `purl()` method shared by the wrappers over plain JSON records
(`SBOMElement.purl` in the source): read the optional `purl` key and, when
it is a truthy string, hand it to the external parser; `None` otherwise.
Calling it on a non-object raises `AttributeError` (no `.get`). -/
def jsonRecordPurl (data : JValue) : Except PyErr (Option PackageURL) :=
  match data with
  | .obj d =>
      match PyDict.get? d "purl" with
      | some (.str s) => .ok (if s ≠ "" then try_parse_purl s else none)
      | some _ => .ok none
      | none => .ok none
  | _ => .error (.attributeError "object has no attribute get")

/-- Wrap a list of dictionary elements into SBOMElement objects
(`wrap_as_element`). -/
def wrap_as_element (items : JValue) : Except PyErr (List SBOMItem) :=
  match items with
  | .arr xs => .ok (xs.map fun c => ⟨jsonRecordPurl c, c⟩)
  | _ => .error (.typeError "object is not iterable")

/-- Modelled from the spec: `merge.wrap_as_cdx` (from the missing
`mobster.sbom.merge`), wrapping CycloneDX components; per the spec the
wrapper's `purl()` parses the component's `purl` field via the external
parser. -/
def wrap_as_cdx (components : JValue) : Except PyErr (List SBOMItem) :=
  match components with
  | .arr xs => .ok (xs.map fun c => ⟨jsonRecordPurl c, c⟩)
  | _ => .error (.typeError "object is not iterable")

/-- Insert into the Python dict keyed by purls (`all_purls[key] = index`):
an existing key is updated in place, a new key is appended (last-writer-wins
on collisions). -/
def purlIndexInsert (m : List (PackageURL × Nat)) (k : PackageURL) (v : Nat) :
    List (PackageURL × Nat) :=
  match m with
  | [] => [(k, v)]
  | (l, w) :: rest =>
      if l = k then (l, v) :: rest else (l, w) :: purlIndexInsert rest k v

/-- Lookup in the purl-keyed dict. -/
def purlIndexLookup (m : List (PackageURL × Nat)) (k : PackageURL) : Option Nat :=
  match m with
  | [] => none
  | (l, w) :: rest => if l = k then some w else purlIndexLookup rest k

/-- Loop body of `all_purls`: `all_purls[purl_without_version(component.purl())] = index`
for each component, in order. -/
def all_purlsGo (sbom : List SBOMItem) (idx : Nat)
    (acc : List (PackageURL × Nat)) : Except PyErr (List (PackageURL × Nat)) :=
  match sbom with
  | [] => .ok acc
  | c :: rest => do
      let k ← stripVersionOf c.purlE
      all_purlsGo rest (idx + 1) (purlIndexInsert acc k idx)

/-- Build the index from version-stripped purl to position in the collection
(`all_purls`). -/
def all_purls (sbom : List SBOMItem) : Except PyErr (List (PackageURL × Nat)) :=
  all_purlsGo sbom 0 []

/-- Loop body of `general_enrich` over the incoming elements.  In the source
`component_to_enrich = target_sbom[index]`; since every merge function
mutates the target record in place and returns that same object, the current
entry of `target_packages` is that record's present state, which is what we
read here. -/
def general_enrichGo (enrichFunc : JValue → JValue → Except PyErr JValue)
    (target_purls : List (PackageURL × Nat)) (incoming : List SBOMItem)
    (target_packages : List JValue) : Except PyErr (List JValue) :=
  match incoming with
  | [] => .ok target_packages
  | element :: rest => do
      let key ← stripVersionOf element.purlE
      match purlIndexLookup target_purls key with
      | some index => do
          let component_to_enrich := target_packages.getD index .null
          let newPackage ← enrichFunc component_to_enrich element.data
          let target_packages :=
            if newPackage.pyTruthy then target_packages.set index newPackage
            else target_packages
          general_enrichGo enrichFunc target_purls rest target_packages
      | none => general_enrichGo enrichFunc target_purls rest target_packages

/-- The Matcher/Merge Driver (`general_enrich`): index the target collection
by version-stripped purl, then for each incoming element with a matching
key apply `enrichFunc` and splice a truthy result back in at the matched
position. -/
def general_enrich (enrichFunc : JValue → JValue → Except PyErr JValue)
    (target_sbom incoming_sbom : List SBOMItem) : Except PyErr (List JValue) := do
  let target_purls ← all_purls target_sbom
  general_enrichGo enrichFunc target_purls incoming_sbom (target_sbom.map (·.data))

/-- Modelled from the spec: `merge._detect_sbom_type`, the external schema
detector (treated by the spec as a black-box classifier).  CycloneDX is
recognized by the marker key `bomFormat`, SPDX by `spdxVersion`; anything
else raises `ValueError` ("fails both schema detectors"). -/
def detect_sbom_type (sbom : JValue) : Except PyErr String :=
  match sbom with
  | .obj d =>
      if PyDict.hasKey d "bomFormat" then .ok "cyclonedx"
      else if PyDict.hasKey d "spdxVersion" then .ok "spdx"
      else .error (.valueError "Unknown SBOM type")
  | _ => .error (.valueError "Unknown SBOM type")

namespace CycloneDXEnricher

/-- The Model-Card Merger (`CycloneDXEnricher.mergeModelCards`), translated
statement by statement.  Python mutates `target_component` in place and
returns it; here the updated record is returned through the `Except` monad.
Note the source computes `newProperties` from the TARGET card and
`targetProperties` from the INCOMING card (the names are swapped in the
source), and appends `[p for p in newProperties if not p in targetProperties]`
-- i.e. target properties absent from the incoming list -- to the target
properties. -/
def mergeModelCards (target_component incoming_component : JValue) :
    Except PyErr JValue := do
  let hasMC ← target_component.hasKey "modelCard"
  if !hasMC then do
    let mc ← incoming_component.getKey "modelCard"
    target_component.setKey "modelCard" mc
  else do
    let newModelCard ← target_component.getKey "modelCard"
    let incomingCard ← incoming_component.getKey "modelCard"
    let mp ← incomingCard.getKey "modelParameters"
    let newModelCard ← newModelCard.setKey "modelParameters" mp
    let hasIncoming ← incoming_component.hasKey "modelCard"
    let newModelCard ←
      if hasIncoming then do
        let hasProps ← newModelCard.hasKey "properties"
        let newProperties ←
          if !hasProps then pure (JValue.arr [])
          else newModelCard.getKey "properties"
        let targetProperties ← incomingCard.getKey "properties"
        match newProperties, targetProperties with
        | .arr nps, .arr tps =>
            newModelCard.setKey "properties"
              (.arr (nps ++ nps.filter fun p => !(tps.any fun q => JValue.beq p q)))
        | _, _ => .error (.typeError "can only concatenate list to list")
      else pure newModelCard
    target_component.setKey "modelCard" newModelCard

/-- Generic-JSON absorption adapter (`CycloneDXEnricher.convertToModelCard`):
synthesize a model card from the incoming record's `data` key, then merge via
`mergeModelCards`. -/
def convertToModelCard (target_component incoming_component : JValue) :
    Except PyErr JValue := do
  let d ← incoming_component.getKey "data"
  let incoming_component ← incoming_component.setKey "modelCard"
      (.obj [("modelParameters", .obj []), ("properties", d)])
  mergeModelCards target_component incoming_component

/-- The tool-list merge step of `CycloneDXEnricher.enrich`:
`target_sbom["metadata"]["tools"]["components"].extend(incoming_sbom["metadata"]["tools"]["components"])`,
with the in-place `extend` rendered as rebuilding the nested object. -/
def extendTools (target_sbom incoming_sbom : JValue) : Except PyErr JValue := do
  let tmeta ← target_sbom.getKey "metadata"
  let ttools ← tmeta.getKey "tools"
  let tcomps ← ttools.getKey "components"
  let imeta ← incoming_sbom.getKey "metadata"
  let itools ← imeta.getKey "tools"
  let icomps ← itools.getKey "components"
  match tcomps, icomps with
  | .arr ts, .arr ics => do
      let ttools ← ttools.setKey "components" (.arr (ts ++ ics))
      let tmeta ← tmeta.setKey "tools" ttools
      target_sbom.setKey "metadata" tmeta
  | _, _ => .error (.typeError "extend expects a list")

/-- The CycloneDX enricher (`CycloneDXEnricher.enrich`): wrap the target
components, detect the incoming schema, and dispatch to the same-schema
model-card merge, the (unimplemented) SPDX path, or -- when the detector
raises `ValueError` -- the generic-JSON absorption fallback.  Only
`ValueError` is caught by the `except` clause; any other exception
propagates. -/
def enrich (target_sbom incoming_sbom : JValue) : Except PyErr JValue := do
  let tcompsRaw ← target_sbom.getKey "components"
  let target_components ← wrap_as_cdx tcompsRaw
  let tryResult : Except PyErr JValue := do
    let ty ← detect_sbom_type incoming_sbom
    if ty = "cyclonedx" then do
      let icompsRaw ← incoming_sbom.getKey "components"
      let incoming_components ← wrap_as_cdx icompsRaw
      let target_sbom ← extendTools target_sbom incoming_sbom
      let newComponents ← general_enrich mergeModelCards target_components incoming_components
      target_sbom.setKey "components" (.arr newComponents)
    else do
      let _ ← incoming_sbom.getKey "packages"
      .error (.notImplementedError "TODO: implement this")
  match tryResult with
  | .error (.valueError _) => do
      let icompsRaw ← incoming_sbom.getKey "components"
      let incoming_elements ← wrap_as_element icompsRaw
      let newComponents ← general_enrich convertToModelCard target_components incoming_elements
      target_sbom.setKey "components" (.arr newComponents)
  | r => r

end CycloneDXEnricher

/-- Modelled from the spec: a Field Mapping Table.  `getFieldName` loads a
static JSON file of shape `fieldName -> {SPDX_Equivalent: string-or-null}`
from `enrich_tools/` (the files are not part of the sources provided) and
returns the `SPDX_Equivalent` entry, or `None` when the field is absent or
its equivalent is null.  We model the loaded table as the lookup function
itself. -/
abbrev FieldMap := String → Option String

namespace SPDXEnricher

/-- Append the incoming CycloneDX tool names to `creationInfo["creators"]`
one at a time (loop body of `SPDXEnricher.addToTools`); Python evaluates
`creationInfo["creators"]` before the `f"Tool: {component['name']}"`
argument. -/
def addToToolsGo (creationInfo : JValue) (components : List JValue) :
    Except PyErr JValue :=
  match components with
  | [] => .ok creationInfo
  | component :: rest => do
      let creators ← creationInfo.getKey "creators"
      match creators with
      | .arr existing => do
          let n ← component.getKey "name"
          let creationInfo ← creationInfo.setKey "creators"
              (.arr (existing ++ [JValue.str ("Tool: " ++ n.pyStr)]))
          addToToolsGo creationInfo rest
      | _ => .error (.attributeError "object has no attribute append")

/-- `SPDXEnricher.addToTools`: for each incoming tool component append
`"Tool: <name>"` to the creators list. -/
def addToTools (creationInfo : JValue) (tools : JValue) : Except PyErr JValue := do
  let comps ← tools.getKey "components"
  match comps with
  | .arr cs => addToToolsGo creationInfo cs
  | _ => .error (.typeError "object is not iterable")

/-- The fixed exclusion set of `SPDXEnricher.enrichPackage`
(`prefer_original`): schema-management fields that are never translated. -/
def prefer_original : List String :=
  ["bomFormat", "serialNumber", "specVersion", "external_references",
   "downloadLocation", "version"]

/-- `SPDXEnricher.makeAnnotationFromField`: synthesize an SPDX Annotation
from a mapped field name and a value.  The `annotationDate` string that
Python produces with `datetime.now().strftime("%Y-%m-%dT%H:%M:%SZ")` is
passed in as the parameter `now` (the clock is external to the embedding). -/
def makeAnnotationFromField (now : String) (field : String) (value : JValue) :
    JValue :=
  .obj [("annotationDate", .str now),
        ("annotationType", .str "OTHER"),
        ("annotator", .str "Tool: OWASP AIBOM Generator"),
        ("comment", .str (field ++ " : " ++ value.pyStr))]

/-- One iteration of the property loop of `SPDXEnricher.enrichPackage`,
threading the package record and the list of synthesized annotations:
read `field["name"]` and `field["value"]`; skip names in the exclusion set;
else consult the general mapping (setting `package[spdxFieldName]` only when
the PROPERTY NAME is not already a key of the package -- this is the check
`not (fieldName in package)` from the source); else consult the AI mapping
and append one synthesized Annotation; else drop the field with a printed
diagnostic.  A non-string hashable name misses both tables; an unhashable
name raises `TypeError` at the table lookup. -/
def enrichFieldStep (generalMap aiMap : FieldMap) (now : String)
    (st : JValue × List JValue) (field : JValue) :
    Except PyErr (JValue × List JValue) := do
  let (package, anns) := st
  let fName ← field.getKey "name"
  let fValue ← field.getKey "value"
  match fName with
  | .str fieldName =>
      if fieldName ∈ prefer_original then pure (package, anns)
      else do
        let genHit ←
          match generalMap fieldName with
          | some f => do
              let h ← package.hasKey fieldName
              pure (if !h then some f else none)
          | none => pure (none : Option String)
        match genHit with
        | some spdxFieldName => do
            let package ← package.setKey spdxFieldName fValue
            pure (package, anns)
        | none =>
            match aiMap fieldName with
            | some spdxAIFieldName =>
                pure (package,
                  anns ++ [makeAnnotationFromField now spdxAIFieldName fValue])
            | none => pure (package, anns)
  | .arr _ => .error (.typeError "unhashable type")
  | .obj _ => .error (.typeError "unhashable type")
  | _ => pure (package, anns)

/-- The Cross-Schema Translator (`SPDXEnricher.enrichPackage`): when the
incoming CycloneDX component carries a `modelCard`, translate each of its
properties per `enrichFieldStep`, then
`package["annotations"].extend(annotations)` (which requires the target
package to already have an `annotations` key). -/
def enrichPackage (generalMap aiMap : FieldMap) (now : String)
    (package : JValue) (component : JValue) : Except PyErr JValue := do
  let hasMC ← component.hasKey "modelCard"
  if hasMC then do
    let modelCard ← component.getKey "modelCard"
    let props ← modelCard.getKey "properties"
    match props with
    | .arr fields => do
        let st ← fields.foldlM (enrichFieldStep generalMap aiMap now) (package, [])
        let annsCur ← st.1.getKey "annotations"
        match annsCur with
        | .arr xs => st.1.setKey "annotations" (.arr (xs ++ st.2))
        | _ => .error (.attributeError "object has no attribute extend")
    | _ => .error (.typeError "object is not iterable")
  else pure package

end SPDXEnricher

/-! Concrete fixtures used by the counterexample, code-bug and witness
theorems below. -/

/-- A model-card property named `a`. -/
def propA : JValue := .obj [("name", .str "a"), ("value", .str "1")]

/-- A model-card property named `b`. -/
def propB : JValue := .obj [("name", .str "b"), ("value", .str "2")]

/-- Target component for C1: a model card whose properties list holds only
`propA`. -/
def C1target : JValue :=
  .obj [("modelCard", .obj [("modelParameters", .obj []),
                            ("properties", .arr [propA])])]

/-- Incoming component for C1: a model card whose properties list holds only
`propB` (a name that does not occur among the target's properties). -/
def C1incoming : JValue :=
  .obj [("modelCard", .obj [("modelParameters", .obj []),
                            ("properties", .arr [propB])])]

/-- Target SPDX package for C2 and C8: it natively defines `supplier` and has
an empty annotations list. -/
def C2package : JValue :=
  .obj [("supplier", .str "orig"), ("annotations", .arr [])]

/-- Incoming CycloneDX component for C2: one model-card property named
`author`. -/
def C2component : JValue :=
  .obj [("modelCard", .obj [("properties",
      .arr [.obj [("name", .str "author"), ("value", .str "X")]])])]

/-- General Field Mapping Table for C2 and C8, mapping the property name
`author` to the SPDX field `supplier` (shape per the spec:
`fieldName -> SPDX_Equivalent`). -/
def C2generalMap : FieldMap := fun n => if n = "author" then some "supplier" else none

/-- AI Field Mapping Table for C8, also containing `author`. -/
def C8aiMap : FieldMap := fun n => if n = "author" then some "authorAI" else none

/-- The C8 property record named `author`. -/
def C8field : JValue := .obj [("name", .str "author"), ("value", .str "X")]

/-- A wrapped element with no resolvable purl (a generic JSON record without
a `purl` key), as produced by `wrap_as_element` for C3. -/
def C3item : SBOMItem := ⟨jsonRecordPurl (.obj []), .obj []⟩

/-- Target CycloneDX document for C4. -/
def C4target : JValue := .obj [("bomFormat", .str "CycloneDX"), ("components", .arr [])]

/-- Incoming document for C4: the arbitrary JSON object from the spec's
end-to-end scenario 4, which fails both schema detectors. -/
def C4incoming : JValue := .obj [("x", .num 1)]

/-- Observer for C9: the length of a CycloneDX document's provenance tool
list `metadata.tools.components`, when that path exists. -/
def toolsLength (sbom : JValue) : Option Nat :=
  match sbom with
  | .obj d =>
      match PyDict.get? d "metadata" with
      | some (.obj dm) =>
          match PyDict.get? dm "tools" with
          | some (.obj dtl) =>
              match PyDict.get? dtl "components" with
              | some (.arr cs) => some cs.length
              | _ => none
          | _ => none
      | _ => none
  | _ => none

/-- Observer for C9: the length of an SPDX document's
`creationInfo.creators` list, when it exists. -/
def creatorsLength (creationInfo : JValue) : Option Nat :=
  match creationInfo with
  | .obj d =>
      match PyDict.get? d "creators" with
      | some (.arr cs) => some cs.length
      | _ => none
  | _ => none

/-! Dictionary lemmas shared by the proofs. -/

/-- Setting a key and reading it back yields the written value. -/
theorem PyDict.get?_set_self (d : PyDict) (k : String) (v : JValue) :
    PyDict.get? (PyDict.set d k v) k = some v := by
  induction d with
  | nil => simp [PyDict.set, PyDict.get?]
  | cons hd tl ih =>
      obtain ⟨l, w⟩ := hd
      by_cases h : l = k <;> simp [PyDict.set, PyDict.get?, h, ih]

/-- Setting a key leaves every other key unchanged. -/
theorem PyDict.get?_set_ne (d : PyDict) (k k' : String) (v : JValue)
    (h : k ≠ k') : PyDict.get? (PyDict.set d k v) k' = PyDict.get? d k' := by
  induction d with
  | nil => simp [PyDict.set, PyDict.get?, h]
  | cons hd tl ih =>
      obtain ⟨l, w⟩ := hd
      by_cases hl : l = k
      · subst hl; simp [PyDict.set, PyDict.get?, h]
      · simp [PyDict.set, PyDict.get?, hl, ih]

/-- Overwriting a key twice keeps only the last write. -/
theorem PyDict.set_set_self (d : PyDict) (k : String) (v w : JValue) :
    PyDict.set (PyDict.set d k v) k w = PyDict.set d k w := by
  induction d with
  | nil => simp [PyDict.set]
  | cons hd tl ih =>
      obtain ⟨l, x⟩ := hd
      by_cases h : l = k <;> simp [PyDict.set, h, ih]

/-- Writing back a key's current value leaves the dictionary unchanged. -/
theorem PyDict.set_get_self (d : PyDict) (k : String) (v : JValue)
    (h : PyDict.get? d k = some v) : PyDict.set d k v = d := by
  induction d with
  | nil => simp [PyDict.get?] at h
  | cons hd tl ih =>
      obtain ⟨l, x⟩ := hd
      by_cases hl : l = k
      · subst hl
        simp [PyDict.get?] at h
        simp [PyDict.set, h]
      · simp [PyDict.get?, hl] at h
        simp [PyDict.set, hl, ih h]

/-- C1 (code bug): evaluating the Model-Card Merger where the target card
holds only property `a` and the incoming card holds only property `b`.  The
claim (and the source's own comment "add everything from incoming properties
that isn't already in the target properties") requires the merged list to be
`[a, b]`; the code instead appends the TARGET properties that are absent
from the incoming list, yielding `[a, a]` and never adding `b`. -/
theorem C1_mergeModelCards_duplicates_target_and_drops_incoming :
    CycloneDXEnricher.mergeModelCards C1target C1incoming =
      .ok (.obj [("modelCard", .obj [("modelParameters", .obj []),
                                     ("properties", .arr [propA, propA])])]) := rfl

/-- C2 (code bug): the target package natively defines `supplier`, the
incoming property is named `author`, and the general Field Mapping Table
maps `author` to `supplier`.  The claim (and the source comment "don't
overwrite the field if its in the original SBOM") requires `supplier` to
stay `"orig"`; the code checks for the PROPERTY NAME `author` in the package
instead of the mapped field, and overwrites `supplier` with `"X"`. -/
theorem C2_enrichPackage_overwrites_native_field :
    SPDXEnricher.enrichPackage C2generalMap (fun _ => none) "2026-01-01T00:00:00Z"
      C2package C2component =
      .ok (.obj [("supplier", .str "X"), ("annotations", .arr [])]) := rfl

/-- C3 (code bug): a target collection containing one element with no
resolvable purl.  The claim (and spec section 4.3) requires the driver to
skip the element and continue; the code instead calls
`purl_without_version(None)`, which raises `AttributeError`. -/
theorem C3_general_enrich_raises_on_missing_purl :
    general_enrich CycloneDXEnricher.mergeModelCards [C3item] [] =
      .error (.attributeError "NoneType object has no attribute _replace") := rfl

/-- C4 (code bug): target is CycloneDX and the incoming document is the
arbitrary JSON object `{"x": 1}`, which fails both schema detectors.  The
claim requires the generic-JSON fallback to complete without an exception;
the fallback immediately evaluates `incoming_sbom["components"]`, which
raises `KeyError: 'components'` on this input. -/
theorem C4_enrich_keyerror_on_generic_json :
    CycloneDXEnricher.enrich C4target C4incoming = .error (.keyError "components") := rfl

/-- C5 (confirmed): whenever the target CycloneDX component lacks a
`modelCard` key and the matched incoming component maps `modelCard` to `mc`,
the Model-Card Merger returns the target with its `modelCard` set to `mc` in
its entirety.  The statement quantifies over arbitrary records, so it holds
in particular when the two components' `purl` fields differ in version. -/
theorem C5_adopts_incoming_modelcard_wholesale
    (target incoming : PyDict) (mc : JValue)
    (h1 : PyDict.hasKey target "modelCard" = false)
    (h2 : PyDict.get? incoming "modelCard" = some mc) :
    CycloneDXEnricher.mergeModelCards (.obj target) (.obj incoming) =
      .ok (.obj (PyDict.set target "modelCard" mc)) := by
  simp [CycloneDXEnricher.mergeModelCards, JValue.hasKey, JValue.getKey,
        JValue.setKey, h1, h2, bind, Except.bind]

/-- C5 witness: a target with purl `pkg:pypi/foo@1.0` and no model card, an
incoming component with purl `pkg:pypi/foo@2.0` carrying a model card. -/
theorem C5_adopts_incoming_modelcard_wholesale_witness :
    CycloneDXEnricher.mergeModelCards
      (.obj [("purl", .str "pkg:pypi/foo@1.0")])
      (.obj [("purl", .str "pkg:pypi/foo@2.0"),
             ("modelCard", .obj [("modelParameters", .obj []),
                                 ("properties", .arr [propB])])]) =
      .ok (.obj [("purl", .str "pkg:pypi/foo@1.0"),
                 ("modelCard", .obj [("modelParameters", .obj []),
                                     ("properties", .arr [propB])])]) :=
  C5_adopts_incoming_modelcard_wholesale
    [("purl", .str "pkg:pypi/foo@1.0")]
    [("purl", .str "pkg:pypi/foo@2.0"),
     ("modelCard", .obj [("modelParameters", .obj []),
                         ("properties", .arr [propB])])]
    (.obj [("modelParameters", .obj []), ("properties", .arr [propB])])
    rfl rfl

/-- C7 (confirmed): a model-card property whose name is in the fixed
exclusion set is skipped by the Cross-Schema Translator's property loop: the
package is untouched and no annotation is synthesized. -/
theorem C7_exclusion_set_is_skipped
    (generalMap aiMap : FieldMap) (now : String)
    (package : JValue) (anns : List JValue) (field : JValue)
    (nm : String) (v : JValue)
    (h1 : field.getKey "name" = .ok (.str nm))
    (h2 : field.getKey "value" = .ok v)
    (h3 : nm ∈ SPDXEnricher.prefer_original) :
    SPDXEnricher.enrichFieldStep generalMap aiMap now (package, anns) field =
      .ok (package, anns) := by
  simp [SPDXEnricher.enrichFieldStep, h1, h2, h3, bind, Except.bind, pure,
        Except.pure]

/-- C7 witness: the excluded property `downloadLocation` leaves the package
and the annotations list unchanged even though both tables map it. -/
theorem C7_exclusion_set_is_skipped_witness :
    SPDXEnricher.enrichFieldStep (fun _ => some "downloadLocation")
      (fun _ => some "downloadLocationAI") "2026-01-01T00:00:00Z"
      (C2package, [])
      (.obj [("name", .str "downloadLocation"), ("value", .str "X")]) =
      .ok (C2package, []) :=
  C7_exclusion_set_is_skipped (fun _ => some "downloadLocation")
    (fun _ => some "downloadLocationAI") "2026-01-01T00:00:00Z"
    C2package [] (.obj [("name", .str "downloadLocation"), ("value", .str "X")])
    "downloadLocation" (.str "X") rfl rfl (by decide)

/-- C8 counterexample: the property `author` is outside the exclusion set,
the general table maps it to `supplier`, the package already defines
`supplier` natively (so "the native field already exists"), and the AI table
also maps `author`.  The claim as stated requires exactly one Annotation to
be appended; the code instead takes the general branch (because the property
NAME `author` is not a key of the package), overwrites `supplier`, and the
synthesized-annotations list stays empty. -/
theorem C8_counterexample_general_branch_taken :
    SPDXEnricher.enrichFieldStep C2generalMap C8aiMap "2026-01-01T00:00:00Z"
      (C2package, []) C8field =
      .ok (.obj [("supplier", .str "X"), ("annotations", .arr [])], []) := rfl

/-- C8 (corrected): for a property whose name is absent from the exclusion
set, is found in the AI Field Mapping Table, and either fails the general
Field Mapping Table lookup or is ITSELF already a key of the target package
(the code tests the incoming property name, not the mapped field), exactly
one Annotation is appended, with `annotationType "OTHER"`, annotator
`"Tool: OWASP AIBOM Generator"`, comment `"<mapped-name> : <value>"` and
`annotationDate` the timestamp string the clock produced
(`datetime.now().strftime("%Y-%m-%dT%H:%M:%SZ")`), passed here as `now`. -/
theorem C8_ai_table_appends_one_annotation_record
    (generalMap aiMap : FieldMap) (now : String)
    (package : JValue) (anns : List JValue) (field : JValue)
    (nm m : String) (v : JValue)
    (h1 : field.getKey "name" = .ok (.str nm))
    (h2 : field.getKey "value" = .ok v)
    (h3 : nm ∉ SPDXEnricher.prefer_original)
    (h4 : generalMap nm = none ∨ package.hasKey nm = .ok true)
    (h5 : aiMap nm = some m) :
    SPDXEnricher.enrichFieldStep generalMap aiMap now (package, anns) field =
      .ok (package, anns ++ [SPDXEnricher.makeAnnotationFromField now m v]) := by
  rcases h4 with h4 | h4
  · simp [SPDXEnricher.enrichFieldStep, h1, h2, h3, h4, h5, bind, Except.bind,
          pure, Except.pure]
  · rcases hg : generalMap nm with _ | f
    · simp [SPDXEnricher.enrichFieldStep, h1, h2, h3, hg, h5, bind, Except.bind,
            pure, Except.pure]
    · simp [SPDXEnricher.enrichFieldStep, h1, h2, h3, hg, h4, h5, bind,
            Except.bind, pure, Except.pure]

/-- C8 witness: `author` maps to `supplier` in the general table, the
package already has the key `author` itself, and the AI table maps `author`
to `authorAI`; exactly one fully specified Annotation is appended. -/
theorem C8_ai_table_appends_one_annotation_record_witness :
    SPDXEnricher.enrichFieldStep C2generalMap C8aiMap "2026-01-01T00:00:00Z"
      (.obj [("author", .str "me"), ("annotations", .arr [])], []) C8field =
      .ok (.obj [("author", .str "me"), ("annotations", .arr [])],
           [.obj [("annotationDate", .str "2026-01-01T00:00:00Z"),
                  ("annotationType", .str "OTHER"),
                  ("annotator", .str "Tool: OWASP AIBOM Generator"),
                  ("comment", .str "authorAI : X")]]) :=
  C8_ai_table_appends_one_annotation_record C2generalMap C8aiMap
    "2026-01-01T00:00:00Z" (.obj [("author", .str "me"), ("annotations", .arr [])])
    [] C8field "author" "authorAI" (.str "X") rfl rfl (by decide)
    (Or.inr rfl) rfl

/-- C6 (confirmed): two purls that differ only in their version field are
mapped by `purl_without_version` to the same normalized identifier, and the
Matcher/Merge Driver therefore pairs a target and an incoming element
carrying such purls: on singleton collections the driver applies the merge
function to the pair (splicing in a truthy result). -/
theorem C6_version_insensitive_matching
    (p : PackageURL) (v w : Option String) (t i : SBOMItem)
    (f : JValue → JValue → Except PyErr JValue)
    (ht : t.purlE = .ok (some { p with version := v }))
    (hi : i.purlE = .ok (some { p with version := w })) :
    purl_without_version { p with version := v } =
      purl_without_version { p with version := w } ∧
    general_enrich f [t] [i] =
      (f t.data i.data).bind (fun r => .ok [if r.pyTruthy then r else t.data]) := by
  refine ⟨rfl, ?_⟩
  have hk : purl_without_version { p with version := w } =
      purl_without_version { p with version := v } := rfl
  simp only [general_enrich, all_purls, all_purlsGo, general_enrichGo,
    stripVersionOf, ht, hi, bind, Except.bind, pure, Except.pure,
    purlIndexInsert, List.map, hk, purlIndexLookup, if_pos rfl]
  cases hf : f t.data i.data with
  | error e => simp [hf]
  | ok r => cases hr : r.pyTruthy <;> simp [hf, hr, List.getD]

/-- C6 witness: purls `pkg:pypi/foo@1.0` and `pkg:pypi/foo@2.0` (structured)
normalize to the same key and the driver pairs the two singleton elements,
applying the Model-Card Merger to them. -/
theorem C6_version_insensitive_matching_witness :
    purl_without_version ⟨"pypi", none, "foo", some "1.0", [], none⟩ =
      purl_without_version ⟨"pypi", none, "foo", some "2.0", [], none⟩ ∧
    general_enrich CycloneDXEnricher.mergeModelCards
      [⟨.ok (some ⟨"pypi", none, "foo", some "1.0", [], none⟩),
        .obj [("name", .str "foo")]⟩]
      [⟨.ok (some ⟨"pypi", none, "foo", some "2.0", [], none⟩),
        .obj [("modelCard", .obj [("modelParameters", .obj []),
                                  ("properties", .arr [propB])])]⟩] =
      (CycloneDXEnricher.mergeModelCards (.obj [("name", .str "foo")])
          (.obj [("modelCard", .obj [("modelParameters", .obj []),
                                     ("properties", .arr [propB])])])).bind
        (fun r => .ok [if r.pyTruthy then r else .obj [("name", .str "foo")]]) :=
  C6_version_insensitive_matching ⟨"pypi", none, "foo", none, [], none⟩
    (some "1.0") (some "2.0")
    ⟨.ok (some ⟨"pypi", none, "foo", some "1.0", [], none⟩),
     .obj [("name", .str "foo")]⟩
    ⟨.ok (some ⟨"pypi", none, "foo", some "2.0", [], none⟩),
     .obj [("modelCard", .obj [("modelParameters", .obj []),
                               ("properties", .arr [propB])])]⟩
    CycloneDXEnricher.mergeModelCards rfl rfl

/-- Setting one key does not create another. -/
theorem PyDict.hasKey_set_ne (d : PyDict) (k k' : String) (v : JValue)
    (h : k ≠ k') : PyDict.hasKey (PyDict.set d k v) k' = PyDict.hasKey d k' := by
  simp [PyDict.hasKey, PyDict.get?_set_ne d k k' v h]

/-- One translator step on a well-formed property record keeps the package
an object and never creates an `annotations` key, provided the general table
never maps to `annotations`. -/
theorem enrichFieldStep_keeps_annotations_missing
    (generalMap aiMap : FieldMap) (now : String)
    (pkg : PyDict) (anns : List JValue) (fd : JValue) (nm : String) (v : JValue)
    (hnm : fd.getKey "name" = .ok (.str nm))
    (hv : fd.getKey "value" = .ok v)
    (hgm : ∀ n f, generalMap n = some f → f ≠ "annotations")
    (hmiss : PyDict.hasKey pkg "annotations" = false) :
    ∃ pkg' anns',
      SPDXEnricher.enrichFieldStep generalMap aiMap now (JValue.obj pkg, anns) fd =
        .ok (JValue.obj pkg', anns') ∧
      PyDict.hasKey pkg' "annotations" = false := by
  by_cases hex : nm ∈ SPDXEnricher.prefer_original
  · exact ⟨pkg, anns, by
      simp [SPDXEnricher.enrichFieldStep, hnm, hv, hex, bind, Except.bind,
            pure, Except.pure], hmiss⟩
  · cases hg : generalMap nm with
    | none =>
        cases ha : aiMap nm with
        | none =>
            exact ⟨pkg, anns, by
              simp [SPDXEnricher.enrichFieldStep, hnm, hv, hex, hg, ha, bind,
                    Except.bind, pure, Except.pure], hmiss⟩
        | some m =>
            exact ⟨pkg, anns ++ [SPDXEnricher.makeAnnotationFromField now m v], by
              simp [SPDXEnricher.enrichFieldStep, hnm, hv, hex, hg, ha, bind,
                    Except.bind, pure, Except.pure], hmiss⟩
    | some f =>
        by_cases hin : PyDict.hasKey pkg nm
        · cases ha : aiMap nm with
          | none =>
              exact ⟨pkg, anns, by
                simp [SPDXEnricher.enrichFieldStep, hnm, hv, hex, hg, hin, ha,
                      JValue.hasKey, bind, Except.bind, pure, Except.pure], hmiss⟩
          | some m =>
              exact ⟨pkg, anns ++ [SPDXEnricher.makeAnnotationFromField now m v], by
                simp [SPDXEnricher.enrichFieldStep, hnm, hv, hex, hg, hin, ha,
                      JValue.hasKey, bind, Except.bind, pure, Except.pure], hmiss⟩
        · refine ⟨PyDict.set pkg f v, anns, by
            simp [SPDXEnricher.enrichFieldStep, hnm, hv, hex, hg, hin,
                  JValue.hasKey, JValue.setKey, bind, Except.bind, pure,
                  Except.pure], ?_⟩
          rw [PyDict.hasKey_set_ne pkg f "annotations" v (hgm nm f hg)]
          exact hmiss

/-- The translator's property loop on well-formed properties succeeds and
never creates an `annotations` key in the package. -/
theorem foldProps_keeps_annotations_missing
    (generalMap aiMap : FieldMap) (now : String)
    (hgm : ∀ n f, generalMap n = some f → f ≠ "annotations") :
    ∀ (fields : List JValue) (pkg : PyDict) (anns : List JValue),
      (∀ fd ∈ fields, ∃ nm v, fd.getKey "name" = .ok (.str nm) ∧
        fd.getKey "value" = .ok v) →
      PyDict.hasKey pkg "annotations" = false →
      ∃ pkg' anns',
        List.foldlM (SPDXEnricher.enrichFieldStep generalMap aiMap now)
          (JValue.obj pkg, anns) fields = .ok (JValue.obj pkg', anns') ∧
        PyDict.hasKey pkg' "annotations" = false := by
  intro fields
  induction fields with
  | nil =>
      intro pkg anns _ hmiss
      exact ⟨pkg, anns, by simp [List.foldlM, pure, Except.pure], hmiss⟩
  | cons fd rest ih =>
      intro pkg anns hwf hmiss
      obtain ⟨nm, v, hnm, hv⟩ := hwf fd (List.mem_cons_self _ _)
      obtain ⟨pkg1, anns1, hstep, hmiss1⟩ :=
        enrichFieldStep_keeps_annotations_missing generalMap aiMap now pkg anns
          fd nm v hnm hv hgm hmiss
      obtain ⟨pkg', anns', hfold, hmiss'⟩ :=
        ih pkg1 anns1 (fun fd' h' => hwf fd' (List.mem_cons_of_mem _ h')) hmiss1
      exact ⟨pkg', anns', by
        simp [List.foldlM, hstep, bind, Except.bind, hfold], hmiss'⟩

/-- C10 (confirmed): whenever the matched incoming component carries a model
card with a well-formed properties list, `SPDXEnricher.enrichPackage`
unconditionally evaluates `package["annotations"]` at the end of the loop
(even when no annotation was synthesized), so a target package without an
`annotations` key makes it raise `KeyError: 'annotations'` instead of
completing.  The general table is assumed never to map a property onto the
`annotations` key itself. -/
theorem C10_missing_annotations_key_raises_keyerror
    (generalMap aiMap : FieldMap) (now : String) (pkg : PyDict)
    (component mc : JValue) (fields : List JValue)
    (hhk : component.hasKey "modelCard" = .ok true)
    (hmc : component.getKey "modelCard" = .ok mc)
    (hprops : mc.getKey "properties" = .ok (.arr fields))
    (hwf : ∀ fd ∈ fields, ∃ nm v, fd.getKey "name" = .ok (.str nm) ∧
      fd.getKey "value" = .ok v)
    (hmiss : PyDict.hasKey pkg "annotations" = false)
    (hgm : ∀ n f, generalMap n = some f → f ≠ "annotations") :
    SPDXEnricher.enrichPackage generalMap aiMap now (.obj pkg) component =
      .error (.keyError "annotations") := by
  obtain ⟨pkg', anns', hfold, hmiss'⟩ :=
    foldProps_keeps_annotations_missing generalMap aiMap now hgm fields pkg []
      hwf hmiss
  have hnone : PyDict.get? pkg' "annotations" = none := by
    cases h : PyDict.get? pkg' "annotations" with
    | none => rfl
    | some x => rw [PyDict.hasKey, h] at hmiss'; simp at hmiss'
  have hga : (JValue.obj pkg').getKey "annotations" =
      Except.error (PyErr.keyError "annotations") := by
    simp [JValue.getKey, hnone]
  simp [SPDXEnricher.enrichPackage, hhk, hmc, hprops, hfold, hga, bind,
        Except.bind]

/-- C10 witness: a package whose only key is `name`, an incoming component
with one well-formed model-card property, and empty mapping tables. -/
theorem C10_missing_annotations_key_raises_keyerror_witness :
    SPDXEnricher.enrichPackage (fun _ => none) (fun _ => none)
      "2026-01-01T00:00:00Z" (.obj [("name", .str "p")]) C2component =
      .error (.keyError "annotations") :=
  C10_missing_annotations_key_raises_keyerror (fun _ => none) (fun _ => none)
    "2026-01-01T00:00:00Z" [("name", .str "p")] C2component
    (.obj [("properties", .arr [.obj [("name", .str "author"), ("value", .str "X")]])])
    [.obj [("name", .str "author"), ("value", .str "X")]]
    rfl rfl rfl
    (by
      intro fd hfd
      simp only [List.mem_singleton] at hfd
      subst hfd
      exact ⟨"author", .str "X", rfl, rfl⟩)
    rfl
    (by intro n f h; exact absurd h (by simp))

/-- Reading an object key that is present succeeds. -/
theorem JValue.getKey_obj_some {d : PyDict} {k : String} {x : JValue}
    (h : PyDict.get? d k = some x) : (JValue.obj d).getKey k = .ok x := by
  simp [JValue.getKey, h]

/-- Item assignment on an object always succeeds. -/
theorem JValue.setKey_obj (d : PyDict) (k : String) (x : JValue) :
    (JValue.obj d).setKey k x = .ok (.obj (PyDict.set d k x)) := rfl

/-- The creators loop of `addToTools` appends exactly one entry per incoming
tool component. -/
theorem addToToolsGo_creators_length :
    ∀ (comps : List JValue) (dci : PyDict) (cs : List JValue),
      PyDict.get? dci "creators" = some (.arr cs) →
      (∀ c ∈ comps, ∃ nv, c.getKey "name" = .ok nv) →
      ∃ cs', SPDXEnricher.addToToolsGo (.obj dci) comps =
          .ok (.obj (PyDict.set dci "creators" (.arr cs'))) ∧
        cs'.length = cs.length + comps.length := by
  intro comps
  induction comps with
  | nil =>
      intro dci cs hci _
      exact ⟨cs, by
        simp [SPDXEnricher.addToToolsGo,
              PyDict.set_get_self dci "creators" (.arr cs) hci], by simp⟩
  | cons c rest ih =>
      intro dci cs hci hn
      obtain ⟨nv, hnv⟩ := hn c (List.mem_cons_self _ _)
      have hget : (JValue.obj dci).getKey "creators" = .ok (.arr cs) :=
        JValue.getKey_obj_some hci
      have hstep : SPDXEnricher.addToToolsGo (.obj dci) (c :: rest) =
          SPDXEnricher.addToToolsGo
            (.obj (PyDict.set dci "creators"
              (.arr (cs ++ [JValue.str ("Tool: " ++ nv.pyStr)])))) rest := by
        simp [SPDXEnricher.addToToolsGo, hget, hnv, bind, Except.bind,
              JValue.setKey]
      obtain ⟨cs', hrec, hlen⟩ :=
        ih (PyDict.set dci "creators" (.arr (cs ++ [JValue.str ("Tool: " ++ nv.pyStr)])))
          (cs ++ [JValue.str ("Tool: " ++ nv.pyStr)])
          (PyDict.get?_set_self _ _ _)
          (fun c' h' => hn c' (List.mem_cons_of_mem _ h'))
      refine ⟨cs', ?_, by simp at hlen ⊢; omega⟩
      rw [hstep, hrec, PyDict.set_set_self]

/-- C9 (confirmed): when the incoming document is CycloneDX, enrichment
appends the incoming tool components to the target's provenance list without
deduplication.  For a CycloneDX target the `metadata.tools.components` list
of the enriched document has length `before + incoming`; for an SPDX target
`addToTools` grows `creationInfo.creators` by exactly one `"Tool: <name>"`
string per incoming tool component.  The schema detector is modelled from
the spec (its source is outside `src/`). -/
theorem C9_tool_lists_append_monotonic
    (dt dm dtools : PyDict) (incoming imeta itools : JValue)
    (tcs ts iccs its newcs : List JValue)
    (dci : PyDict) (cs : List JValue) (tools : JValue) (comps : List JValue)
    (h_tc : PyDict.get? dt "components" = some (.arr tcs))
    (h_tm : PyDict.get? dt "metadata" = some (.obj dm))
    (h_tt : PyDict.get? dm "tools" = some (.obj dtools))
    (h_ttc : PyDict.get? dtools "components" = some (.arr ts))
    (hdet : detect_sbom_type incoming = .ok "cyclonedx")
    (h_ic : incoming.getKey "components" = .ok (.arr iccs))
    (h_im : incoming.getKey "metadata" = .ok imeta)
    (h_it : imeta.getKey "tools" = .ok itools)
    (h_itc : itools.getKey "components" = .ok (.arr its))
    (h_ge : general_enrich CycloneDXEnricher.mergeModelCards
        (tcs.map fun c => ⟨jsonRecordPurl c, c⟩)
        (iccs.map fun c => ⟨jsonRecordPurl c, c⟩) = .ok newcs)
    (h_ci : PyDict.get? dci "creators" = some (.arr cs))
    (h_tools : tools.getKey "components" = .ok (.arr comps))
    (h_names : ∀ c ∈ comps, ∃ nv, c.getKey "name" = .ok nv) :
    Except.map toolsLength (CycloneDXEnricher.enrich (.obj dt) incoming) =
      .ok (some (ts.length + its.length)) ∧
    Except.map creatorsLength (SPDXEnricher.addToTools (.obj dci) tools) =
      .ok (some (cs.length + comps.length)) := by
  constructor
  · have g1 : (JValue.obj dt).getKey "components" = .ok (.arr tcs) :=
      JValue.getKey_obj_some h_tc
    have g2 : (JValue.obj dt).getKey "metadata" = .ok (.obj dm) :=
      JValue.getKey_obj_some h_tm
    have g3 : (JValue.obj dm).getKey "tools" = .ok (.obj dtools) :=
      JValue.getKey_obj_some h_tt
    have g4 : (JValue.obj dtools).getKey "components" = .ok (.arr ts) :=
      JValue.getKey_obj_some h_ttc
    have hext : CycloneDXEnricher.extendTools (.obj dt) incoming =
        .ok (.obj (PyDict.set dt "metadata" (.obj (PyDict.set dm "tools"
          (.obj (PyDict.set dtools "components" (.arr (ts ++ its)))))))) := by
      simp [CycloneDXEnricher.extendTools, g2, g3, g4, h_im, h_it, h_itc,
            JValue.setKey, bind, Except.bind]
    have henr : CycloneDXEnricher.enrich (.obj dt) incoming =
        .ok (.obj (PyDict.set (PyDict.set dt "metadata" (.obj (PyDict.set dm
          "tools" (.obj (PyDict.set dtools "components" (.arr (ts ++ its)))))))
          "components" (.arr newcs))) := by
      simp [CycloneDXEnricher.enrich, g1, wrap_as_cdx, hdet, h_ic, hext, h_ge,
            JValue.setKey, bind, Except.bind]
    rw [henr]
    have hm : PyDict.get? (PyDict.set (PyDict.set dt "metadata"
        (.obj (PyDict.set dm "tools" (.obj (PyDict.set dtools "components"
          (.arr (ts ++ its))))))) "components" (.arr newcs)) "metadata" =
        some (.obj (PyDict.set dm "tools" (.obj (PyDict.set dtools "components"
          (.arr (ts ++ its)))))) := by
      rw [PyDict.get?_set_ne _ _ _ _ (by decide)]
      exact PyDict.get?_set_self _ _ _
    simp [Except.map, toolsLength, hm, PyDict.get?_set_self]
  · obtain ⟨cs', hgo, hlen⟩ :=
      addToToolsGo_creators_length comps dci cs h_ci h_names
    simp [SPDXEnricher.addToTools, h_tools, bind, Except.bind, hgo, Except.map,
          creatorsLength, PyDict.get?_set_self, hlen]

/-- C9 witness: a CycloneDX target with one tool (`syft`) enriched by a
CycloneDX document with one tool (`owasp`) ends up with two tools, and an
SPDX creationInfo with one creator gains exactly one `"Tool: owasp"`
entry. -/
theorem C9_tool_lists_append_monotonic_witness :
    Except.map toolsLength (CycloneDXEnricher.enrich
      (.obj [("bomFormat", .str "CycloneDX"),
             ("metadata", .obj [("tools", .obj [("components",
               .arr [.obj [("name", .str "syft")]])])]),
             ("components", .arr [])])
      (.obj [("bomFormat", .str "CycloneDX"),
             ("metadata", .obj [("tools", .obj [("components",
               .arr [.obj [("name", .str "owasp")]])])]),
             ("components", .arr [])])) = .ok (some 2) ∧
    Except.map creatorsLength (SPDXEnricher.addToTools
      (.obj [("creators", .arr [.str "Tool: syft"])])
      (.obj [("components", .arr [.obj [("name", .str "owasp")]])])) =
      .ok (some 2) :=
  C9_tool_lists_append_monotonic
    [("bomFormat", .str "CycloneDX"),
     ("metadata", .obj [("tools", .obj [("components",
       .arr [.obj [("name", .str "syft")]])])]),
     ("components", .arr [])]
    [("tools", .obj [("components", .arr [.obj [("name", .str "syft")]])])]
    [("components", .arr [.obj [("name", .str "syft")]])]
    (.obj [("bomFormat", .str "CycloneDX"),
           ("metadata", .obj [("tools", .obj [("components",
             .arr [.obj [("name", .str "owasp")]])])]),
           ("components", .arr [])])
    (.obj [("tools", .obj [("components", .arr [.obj [("name", .str "owasp")]])])])
    (.obj [("components", .arr [.obj [("name", .str "owasp")]])])
    [] [.obj [("name", .str "syft")]] [] [.obj [("name", .str "owasp")]] []
    [("creators", .arr [.str "Tool: syft"])] [.str "Tool: syft"]
    (.obj [("components", .arr [.obj [("name", .str "owasp")]])])
    [.obj [("name", .str "owasp")]]
    rfl rfl rfl rfl rfl rfl rfl rfl rfl rfl rfl rfl
    (by
      intro c hc
      simp only [List.mem_singleton] at hc
      subst hc
      exact ⟨.str "owasp", rfl⟩)
